import Mathlib

/-!
Verification of the resilience + resource-pooling core of the wa-agent
repository (packages/resilience/src/index.ts): retry with exponential
backoff around a fallible operation, a circuit breaker wrapper, a
two-tier (memory + Redis) cache, a bounded warm-agent pool, a Redis-backed
FIFO message queue, and a transactional helper over a Postgres pool.

JavaScript errors are modelled as records carrying the fields the code
inspects (message, statusCode, code); asynchronous operations are modelled
as pure functions from the invocation index to an Except result; time is an
explicit Nat parameter.
-/

namespace WaAgent

/-- Decidable equality for Except results, used to evaluate the model on
concrete inputs. -/
instance {ε α : Type} [DecidableEq ε] [DecidableEq α] : DecidableEq (Except ε α) := fun a b =>
  match a, b with
  | Except.ok x, Except.ok y =>
    if h : x = y then isTrue (by rw [h]) else isFalse (fun hc => h (Except.ok.inj hc))
  | Except.ok _, Except.error _ => isFalse (fun hc => Except.noConfusion hc)
  | Except.error _, Except.ok _ => isFalse (fun hc => Except.noConfusion hc)
  | Except.error x, Except.error y =>
    if h : x = y then isTrue (by rw [h]) else isFalse (fun hc => h (Except.error.inj hc))

/-- Model of a JavaScript error value as inspected by the resilience layer:
a message plus the optional fields statusCode and code read by
ResilientFunction.isNonRetryableError. -/
structure JSError where
  message : String
  statusCode : Option Nat
  code : Option String
deriving Repr, DecidableEq

/-- Model of the RetryOptions interface (index.ts lines 7-13): every field
optional; none models an absent property. The observer callback
onFailedAttempt is not modelled (it does not affect control flow). -/
structure RetryOptions where
  retries : Option Nat
  minTimeout : Option Nat
  maxTimeout : Option Nat
  factor : Option Nat
deriving Repr, DecidableEq

/-- Model of the CircuitBreakerOptions interface (index.ts lines 15-21). -/
structure CircuitBreakerOptions where
  timeout : Option Nat
  errorThresholdPercentage : Option Nat
  resetTimeout : Option Nat
  rollingCountTimeout : Option Nat
  rollingCountBuckets : Option Nat
deriving Repr, DecidableEq

/-- Fully resolved retry configuration, after the constructor merges the
defaults { retries: 3, minTimeout: 1000, maxTimeout: 10000, factor: 2 }
with the caller-supplied options (index.ts lines 33-39). -/
structure RetryConf where
  retries : Nat
  minTimeout : Nat
  maxTimeout : Nat
  factor : Nat
deriving Repr, DecidableEq

/-- The object-spread merge performed by the ResilientFunction constructor:
a field present in the caller-supplied options overrides the default. -/
def resolveRetryOptions (o : RetryOptions) : RetryConf :=
  { retries := o.retries.getD 3
  , minTimeout := o.minTimeout.getD 1000
  , maxTimeout := o.maxTimeout.getD 10000
  , factor := o.factor.getD 2 }

namespace ResilientFunction

/-- Direct translation of ResilientFunction.isNonRetryableError
(index.ts lines 100-109). -/
def isNonRetryableError (e : JSError) : Bool :=
  e.statusCode == some 400 ||
  e.statusCode == some 401 ||
  e.statusCode == some 403 ||
  e.statusCode == some 404 ||
  e.code == some "INVALID_INPUT" ||
  e.code == some "AUTHENTICATION_FAILED"

/-- The classifier actually used by an instance constructed with the given
options: isNonRetryableError is a private method and the constructor
(index.ts lines 27-52) stores no classifier, so the classification does not
depend on the configuration. -/
def classifierOf (_r : RetryOptions) (_c : CircuitBreakerOptions) : JSError → Bool :=
  isNonRetryableError

/-- Outcome of one attempt of the closure passed to pRetry
(index.ts lines 74-83): success, an AbortError carrying only the original
message, or an ordinary (retryable) error. -/
inductive AttemptOutcome (T : Type) where
  | ok (v : T)
  | aborted (msg : String)
  | failed (e : JSError)
deriving Repr, DecidableEq

/-- Translation of the closure passed to pRetry (index.ts lines 74-83):
run the wrapped function; on failure, a non-retryable error is rethrown as
AbortError(error.message), every other error is rethrown as-is.
The wrapped function is modelled as a map from the 0-based invocation index
to its result. -/
def attemptBody {T : Type} (fn : Nat → Except JSError T) (i : Nat) : AttemptOutcome T :=
  match fn i with
  | Except.ok v => AttemptOutcome.ok v
  | Except.error e =>
    if isNonRetryableError e then AttemptOutcome.aborted e.message
    else AttemptOutcome.failed e

/-- The wait prescribed before the retry following failed attempt number
attempt (0-based): min(maxTimeout, minTimeout * factor^attempt), the capped
exponential backoff of the retry configuration. -/
def retryWait (o : RetryConf) (attempt : Nat) : Nat :=
  min o.maxTimeout (o.minTimeout * o.factor ^ attempt)

/-- Trace of one run of the retry loop: the final result, the number of
invocations of the wrapped function, and the waits inserted between
consecutive invocations. -/
structure RunTrace (T : Type) where
  result : Except JSError T
  calls : Nat
  waits : List Nat
deriving Repr, DecidableEq

/-- Modelled from the spec: the p-retry driver itself is a library and not
part of this repository. Per the spec (section 4.2) and the documented
p-retry contract: run the body; success returns; an abort rejects at once
with a fresh Error carrying only the abort message (the AbortError
constructor, given a string, wraps it in a new Error, which is what the
promise is rejected with); an ordinary failure waits the capped exponential
backoff and retries while additional attempts remain, and exhausting the
retries propagates the last error. -/
def pRetryRun {T : Type} (body : Nat → AttemptOutcome T) (o : RetryConf) :
    Nat → Nat → RunTrace T
  | attempt, 0 =>
    match body attempt with
    | AttemptOutcome.ok v => { result := Except.ok v, calls := 1, waits := [] }
    | AttemptOutcome.aborted msg =>
      { result := Except.error { message := msg, statusCode := none, code := none }
      , calls := 1, waits := [] }
    | AttemptOutcome.failed e => { result := Except.error e, calls := 1, waits := [] }
  | attempt, r + 1 =>
    match body attempt with
    | AttemptOutcome.ok v => { result := Except.ok v, calls := 1, waits := [] }
    | AttemptOutcome.aborted msg =>
      { result := Except.error { message := msg, statusCode := none, code := none }
      , calls := 1, waits := [] }
    | AttemptOutcome.failed _ =>
      let rest := pRetryRun body o (attempt + 1) r
      { result := rest.result
      , calls := rest.calls + 1
      , waits := retryWait o attempt :: rest.waits }

/-- Translation of ResilientFunction.executeWithRetry (index.ts lines
72-98): pRetry over the classifying attempt body, with the instance retry
configuration. -/
def executeWithRetry {T : Type} (fn : Nat → Except JSError T) (o : RetryConf) : RunTrace T :=
  pRetryRun (attemptBody fn) o 0 o.retries

/-- Circuit breaker state (spec section 4.3). -/
inductive CircuitState where
  | closed
  | halfOpen
  | opened
deriving Repr, DecidableEq

/-- Error surfaced by ResilientFunction.execute: either the synthetic
rejection produced while the circuit is open, or an error produced by the
retried underlying operation. -/
inductive ExecError where
  | circuitOpen
  | underlying (e : JSError)
deriving Repr, DecidableEq

/-- Trace of one call of ResilientFunction.execute. -/
structure ExecTrace (T : Type) where
  result : Except ExecError T
  calls : Nat
  waits : List Nat
deriving Repr, DecidableEq

/-- Modelled from the spec where the opossum breaker is involved (the
opossum library is not part of this repository): while the circuit is open
the call is rejected immediately with the synthetic circuit-open error and
the wrapped operation is not invoked; otherwise (closed, or the half-open
trial call) the call passes through to executeWithRetry
(index.ts lines 41-49 and 111-122). -/
def execute {T : Type} (st : CircuitState) (fn : Nat → Except JSError T)
    (o : RetryConf) : ExecTrace T :=
  match st with
  | CircuitState.opened =>
    { result := Except.error ExecError.circuitOpen, calls := 0, waits := [] }
  | _ =>
    let t := executeWithRetry fn o
    { result :=
        match t.result with
        | Except.ok v => Except.ok v
        | Except.error e => Except.error (ExecError.underlying e)
    , calls := t.calls
    , waits := t.waits }

/-- Modelled from the spec: rolling-window statistics of the circuit
breaker (spec sections 3 and 4.3) — counts of successes and failures
observed within the current rolling window. The opossum breaker
implementation is not part of this repository. -/
structure BreakerWindow where
  successes : Nat
  failures : Nat
deriving Repr, DecidableEq

/-- Modelled from the spec: the configuration consulted by the
closed-to-open transition rule — the failure-percentage threshold and the
minimum observed call volume below which the breaker never opens
(spec section 4.3, design choice: avoid opening on a single failure when
volume is near zero). -/
structure BreakerConf where
  errorThresholdPercentage : Nat
  volumeThreshold : Nat
deriving Repr, DecidableEq

/-- Total number of calls observed in the window. -/
def windowVolume (w : BreakerWindow) : Nat :=
  w.successes + w.failures

/-- Failure percentage of the window, 0 when no call has been observed. -/
def failurePercentage (w : BreakerWindow) : Nat :=
  if windowVolume w = 0 then 0 else w.failures * 100 / windowVolume w

/-- Modelled from the spec: the closed breaker opens exactly when the
failure percentage reaches the threshold and the minimum call volume has
been observed. -/
def shouldOpen (c : BreakerConf) (w : BreakerWindow) : Bool :=
  decide (c.volumeThreshold ≤ windowVolume w) &&
  decide (c.errorThresholdPercentage ≤ failurePercentage w)

/-- Modelled from the spec: the state-transition function of the breaker as
far as the closed state is concerned — closed goes to open exactly when
shouldOpen holds; the open and half-open transitions are time-driven and
not consulted by the claims about the closed state. -/
def breakerTransition (c : BreakerConf) (st : CircuitState) (w : BreakerWindow) : CircuitState :=
  match st with
  | CircuitState.closed =>
    if shouldOpen c w then CircuitState.opened else CircuitState.closed
  | s => s

end ResilientFunction

/-- The JavaScript or-default idiom x || d used throughout the cache
configuration: both an absent value and 0 (falsy) fall back to the
default. -/
def jsOrNat (x : Option Nat) (d : Nat) : Nat :=
  match x with
  | none => d
  | some n => if n = 0 then d else n

/-- Model of the CacheConfig interface (index.ts lines 469-473); the
staleWhileRefreshMs field is never read by the code and is omitted. -/
structure CacheConfig where
  maxSize : Option Nat
  ttlMs : Option Nat
deriving Repr, DecidableEq

/-- One entry of the in-memory LRU tier: the stored value, the time the
entry was stored or last refreshed, and its TTL. -/
structure LocalEntry (V : Type) where
  value : V
  start : Nat
  ttl : Nat
deriving Repr, DecidableEq

/-- The in-memory LRU tier (the lru-cache library instance built by the
AgentCache constructor, index.ts lines 603-609): entries ordered most
recently used first, bounded by max. The constructor sets allowStale and
updateAgeOnGet to true; lru-cache requires a positive max and the
constructor passes config.maxSize || 1000. -/
structure LocalCache (V : Type) where
  max : Nat
  entries : List (String × LocalEntry V)
deriving Repr, DecidableEq

/-- Lookup in the LRU tier at the given time. A fresh hit returns the value
and refreshes the entry (updateAgeOnGet: the TTL clock restarts and the
entry moves to most-recently-used); a stale hit returns the stale value and
drops the entry (allowStale); a miss leaves the cache unchanged. -/
def lruGet {V : Type} (now : Nat) (c : LocalCache V) (k : String) :
    Option V × LocalCache V :=
  match c.entries.find? (fun p => p.1 == k) with
  | none => (none, c)
  | some p =>
    if now < p.2.start + p.2.ttl then
      (some p.2.value,
        { c with entries := (k, { p.2 with start := now }) ::
            c.entries.filter (fun q => ¬ q.1 == k) })
    else
      (some p.2.value, { c with entries := c.entries.filter (fun q => ¬ q.1 == k) })

/-- Insertion into the LRU tier at the given time: the new entry becomes
most recently used; an existing entry for the key is replaced; the least
recently used entries beyond the capacity are evicted. -/
def lruSet {V : Type} (now : Nat) (c : LocalCache V) (k : String) (v : V) (ttl : Nat) :
    LocalCache V :=
  { c with entries :=
      (k, { value := v, start := now, ttl := ttl }) ::
        (c.entries.filter (fun q => ¬ q.1 == k)).take (c.max - 1) }

/-- Outcome of one operation against the remote (Redis) tier: a result, or
a connection/command error. -/
inductive RemoteResult (α : Type) where
  | ok (v : α)
  | err
deriving Repr, DecidableEq

namespace AgentCache

/-- The in-memory tier built by the AgentCache constructor (index.ts lines
603-609): empty, bounded by config.maxSize || 1000. -/
def initMemory (V : Type) (cfg : CacheConfig) : LocalCache V :=
  { max := jsOrNat cfg.maxSize 1000, entries := [] }

/-- Translation of AgentCache.get (index.ts lines 612-638): try the memory
cache first and return a hit at once; on a memory miss consult the remote
tier when configured — a remote hit is parsed, copied into the memory cache
(with the default TTL) and returned, while a remote miss returns null and a
remote error is caught (logged) and likewise leads to null. The remote tier
is modelled by the outcome the configured Redis connection would produce
(none when no Redis is configured); JSON serialization round-trips values
unchanged, so stored strings are modelled by the values themselves. -/
def get {V : Type} (now : Nat) (cfg : CacheConfig) (cache : LocalCache V)
    (remote : Option (RemoteResult (Option V))) (k : String) :
    Option V × LocalCache V :=
  match lruGet now cache k with
  | (some v, c1) => (some v, c1)
  | (none, c1) =>
    match remote with
    | none => (none, c1)
    | some (RemoteResult.ok (some v)) =>
      (some v, lruSet now c1 k v (jsOrNat cfg.ttlMs 300000))
    | some (RemoteResult.ok none) => (none, c1)
    | some RemoteResult.err => (none, c1)

/-- Translation of AgentCache.set (index.ts lines 640-659): compute the
effective TTL as ttlMs || config.ttlMs || 300000, always write the memory
tier, then best-effort write the remote tier — the outcome of the remote
setex call (including an error, which the code catches and logs) does not
affect the local write or the caller. -/
def set {V : Type} (now : Nat) (cfg : CacheConfig) (cache : LocalCache V)
    (k : String) (v : V) (ttlMs : Option Nat)
    (_remoteOutcome : Option (RemoteResult Unit)) : LocalCache V :=
  lruSet now cache k v (jsOrNat ttlMs (jsOrNat cfg.ttlMs 300000))

end AgentCache

namespace AgentPool

/-- One entry of the warm-agent map (index.ts lines 733-736): the agent
handle (opaque, modelled as a Nat) and its construction timestamp. -/
structure PoolEntry where
  agent : Nat
  timestamp : Nat
deriving Repr, DecidableEq

/-- The AgentPool state (index.ts lines 694-703): the warm-agent map and
the creator map, both JavaScript Maps modelled as association lists in
insertion order with unique keys (Map.set on an existing key keeps its
position; iteration order is insertion order), plus the configuration.
A creator is modelled by the agent value it produces. -/
structure PoolState where
  warmAgents : List (String × PoolEntry)
  agentCreators : List (String × Nat)
  maxSize : Nat
  ttlMs : Nat
deriving Repr, DecidableEq

/-- JavaScript Map.get on an association list. -/
def mapGet {A : Type} (m : List (String × A)) (k : String) : Option A :=
  (m.find? (fun p => p.1 == k)).map (fun p => p.2)

/-- JavaScript Map.set on an association list: replace in place when the
key is present, otherwise append. -/
def mapSet {A : Type} (m : List (String × A)) (k : String) (v : A) : List (String × A) :=
  match m with
  | [] => [(k, v)]
  | p :: rest => if p.1 == k then (k, v) :: rest else p :: mapSet rest k v

/-- Fresh pool (index.ts constructor, lines 700-703). -/
def init (maxSize ttlMs : Nat) : PoolState :=
  { warmAgents := [], agentCreators := [], maxSize := maxSize, ttlMs := ttlMs }

/-- Translation of AgentPool.registerAgentCreator (index.ts lines
705-707). -/
def registerAgentCreator (st : PoolState) (sessionId : String) (creator : Nat) : PoolState :=
  { st with agentCreators := mapSet st.agentCreators sessionId creator }

/-- Result of getAgent: the agent handle and whether the factory was
invoked (false when a warm agent was reused), or the rejection raised when
no creator is registered. -/
inductive GetAgentResult where
  | ok (agent : Nat) (createdNew : Bool)
  | error (msg : String)
deriving Repr, DecidableEq

/-- Translation of AgentPool.getAgent (index.ts lines 709-739): return the
cached agent when one exists and is younger than the TTL; otherwise look up
the creator (rejecting when none is registered), build a new agent, evict
the insertion-order-oldest entry when the map is at capacity — but via
JavaScript truthiness, so an empty-string oldest key is not evicted — and
store the new agent with a fresh timestamp. -/
def getAgent (now : Nat) (st : PoolState) (sessionId : String) :
    GetAgentResult × PoolState :=
  match mapGet st.warmAgents sessionId with
  | some ent =>
    if now - ent.timestamp < st.ttlMs then
      (GetAgentResult.ok ent.agent false, st)
    else
      getAgentCreate now st sessionId
  | none => getAgentCreate now st sessionId
where
  getAgentCreate (now : Nat) (st : PoolState) (sessionId : String) :
      GetAgentResult × PoolState :=
    match mapGet st.agentCreators sessionId with
    | none =>
      (GetAgentResult.error ("No agent creator registered for session: " ++ sessionId), st)
    | some creator =>
      let afterEvict :=
        if st.maxSize ≤ st.warmAgents.length then
          match st.warmAgents.head? with
          | some p => if p.1 = "" then st.warmAgents
                      else st.warmAgents.eraseP (fun q => q.1 == p.1)
          | none => st.warmAgents
        else st.warmAgents
      (GetAgentResult.ok creator true,
        { st with warmAgents :=
            mapSet afterEvict sessionId { agent := creator, timestamp := now } })

/-- Translation of AgentPool.cleanup (index.ts lines 741-749): drop every
entry whose age has reached the TTL. -/
def cleanup (now : Nat) (st : PoolState) : PoolState :=
  { st with warmAgents :=
      st.warmAgents.filter (fun p => now - p.2.timestamp < st.ttlMs) }

/-- One externally triggered pool operation, for stating invariants over
arbitrary operation sequences. -/
inductive PoolOp where
  | register (sessionId : String) (creator : Nat)
  | get (now : Nat) (sessionId : String)
  | sweep (now : Nat)
deriving Repr, DecidableEq

/-- Apply one pool operation, discarding the getAgent return value. -/
def applyOp (st : PoolState) : PoolOp → PoolState
  | PoolOp.register sessionId creator => registerAgentCreator st sessionId creator
  | PoolOp.get now sessionId => (getAgent now st sessionId).2
  | PoolOp.sweep now => cleanup now st

/-- Run a sequence of pool operations from a given state. -/
def runOps (st : PoolState) : List PoolOp → PoolState
  | [] => st
  | op :: ops => runOps (applyOp st op) ops

/-- The session id named by an operation (sweeps name none). -/
def opSession : PoolOp → Option String
  | PoolOp.register sessionId _ => some sessionId
  | PoolOp.get _ sessionId => some sessionId
  | PoolOp.sweep _ => none

end AgentPool

namespace MessageQueue

/-- The wrapped message built by MessageQueue.enqueue (index.ts lines
766-779): generated id, payload, enqueue timestamp and attempt counter.
The uuidv4 id generator is modelled by a fresh-counter supply, an id never
handed out before. -/
structure QMessage (V : Type) where
  id : Nat
  data : V
  timestamp : Nat
  attempts : Nat
deriving Repr, DecidableEq

/-- The queue state: the Redis list holding the serialized messages (head
of the list = left end, where lpush inserts) and the id supply. JSON
serialization round-trips messages unchanged, so stored strings are
modelled by the messages themselves. -/
structure QueueState (V : Type) where
  items : List (QMessage V)
  nextId : Nat
deriving Repr, DecidableEq

/-- The empty queue. -/
def empty (V : Type) : QueueState V :=
  { items := [], nextId := 0 }

/-- Translation of MessageQueue.enqueue (index.ts lines 766-779): wrap the
payload with a fresh id, the current time and zero attempts, lpush it onto
the left end of the list and return the id. -/
def enqueue {V : Type} (now : Nat) (st : QueueState V) (payload : V) :
    Nat × QueueState V :=
  (st.nextId,
    { items := { id := st.nextId, data := payload, timestamp := now, attempts := 0 } :: st.items
    , nextId := st.nextId + 1 })

/-- Translation of MessageQueue.dequeue (index.ts lines 781-793): brpop
blocks on the right end of the list — the oldest message — removing and
returning it, or returns null when the bounded wait expires on an empty
list. -/
def dequeue {V : Type} (st : QueueState V) : Option (QMessage V) × QueueState V :=
  match st.items.getLast? with
  | none => (none, st)
  | some m => (some m, { st with items := st.items.dropLast })

/-- Enqueue a list of payloads in order. -/
def enqueueAll {V : Type} (now : Nat) (st : QueueState V) : List V → QueueState V
  | [] => st
  | p :: ps => enqueueAll now (enqueue now st p).2 ps

/-- Dequeue n messages, stopping early on an empty queue. -/
def dequeueAll {V : Type} (st : QueueState V) : Nat → List (QMessage V) × QueueState V
  | 0 => ([], st)
  | n + 1 =>
    match dequeue st with
    | (none, st1) => ([], st1)
    | (some m, st1) =>
      let rest := dequeueAll st1 n
      (m :: rest.1, rest.2)

/-- The messages enqueue builds for a payload list, oldest first, with ids
counted from n0. -/
def wrapList {V : Type} (now n0 : Nat) : List V → List (QMessage V)
  | [] => []
  | p :: ps => { id := n0, data := p, timestamp := now, attempts := 0 } :: wrapList now (n0 + 1) ps

end MessageQueue

/-- State of one pooled Postgres client inside withTransaction: the queries
issued on it so far and whether it has been released back to the pool. -/
structure TxClient where
  queries : List String
  released : Bool
deriving Repr, DecidableEq

/-- Issue one SQL command on the client. -/
def txQuery (c : TxClient) (q : String) : TxClient :=
  { c with queries := c.queries ++ [q] }

/-- Release the client back to the pool. -/
def txRelease (c : TxClient) : TxClient :=
  { c with released := true }

/-- Translation of withTransaction (index.ts lines 808-825): acquire a
client from the pool, issue BEGIN, run the callback; on success issue
COMMIT and return the callback result, on a callback error issue ROLLBACK
and rethrow that error; on either path release the client (the finally
block). The callback is modelled as a function from the client it receives
to its thrown-or-returned outcome together with the client as it leaves it;
BEGIN, COMMIT and ROLLBACK themselves are modelled as succeeding. -/
def withTransaction {T E : Type} (cb : TxClient → Except E T × TxClient) :
    Except E T × TxClient :=
  let c0 : TxClient := { queries := [], released := false }
  let c1 := txQuery c0 "BEGIN"
  let r := cb c1
  match r with
  | (Except.ok v, c2) => (Except.ok v, txRelease (txQuery c2 "COMMIT"))
  | (Except.error e, c2) => (Except.error e, txRelease (txQuery c2 "ROLLBACK"))


/-- Concrete non-retryable error used by witnesses: HTTP 400. -/
def exErr400 : JSError :=
  { message := "Bad request", statusCode := some 400, code := none }

/-- Concrete retryable error used by witnesses: HTTP 500. -/
def exErr500 : JSError :=
  { message := "Service down", statusCode := some 500, code := none }

/-- Concrete operation that always fails with the 400 error. -/
def fnErr400 : Nat → Except JSError Nat :=
  fun _ => Except.error exErr400

/-- Concrete operation that always fails with the 500 error. -/
def fnErr500 : Nat → Except JSError Nat :=
  fun _ => Except.error exErr500

/-- The default retry configuration of the ResilientFunction constructor. -/
def retryConfDefault : RetryConf :=
  { retries := 3, minTimeout := 1000, maxTimeout := 10000, factor := 2 }


namespace ResilientFunction

/-- A successful attempt stops the retry driver at one call, whatever fuel
remains. -/
theorem pRetryRun_ok {T : Type} {body : Nat → AttemptOutcome T} {attempt : Nat} {v : T}
    (o : RetryConf) (fuel : Nat) (h : body attempt = AttemptOutcome.ok v) :
    pRetryRun body o attempt fuel = { result := Except.ok v, calls := 1, waits := [] } := by
  cases fuel <;> simp [pRetryRun, h]

/-- An aborted attempt stops the retry driver at one call with a fresh
error carrying only the abort message, whatever fuel remains. -/
theorem pRetryRun_aborted {T : Type} {body : Nat → AttemptOutcome T} {attempt : Nat} {msg : String}
    (o : RetryConf) (fuel : Nat) (h : body attempt = AttemptOutcome.aborted msg) :
    pRetryRun body o attempt fuel =
      { result := Except.error { message := msg, statusCode := none, code := none }
      , calls := 1, waits := [] } := by
  cases fuel <;> simp [pRetryRun, h]

/-- C1: for every error whose statusCode is 400, 401, 403 or 404, or whose
application code is INVALID_INPUT or AUTHENTICATION_FAILED, execute (when
the circuit is not open, so that the call reaches the wrapped function)
invokes the wrapped function exactly once and then rejects, regardless of
the configured number of retries. -/
theorem claim_C1_nonretryable_single_call {T : Type} (st : CircuitState)
    (fn : Nat → Except JSError T) (o : RetryConf) (e : JSError)
    (hst : st ≠ CircuitState.opened)
    (h0 : fn 0 = Except.error e)
    (he : e.statusCode = some 400 ∨ e.statusCode = some 401 ∨ e.statusCode = some 403 ∨
          e.statusCode = some 404 ∨ e.code = some "INVALID_INPUT" ∨
          e.code = some "AUTHENTICATION_FAILED") :
    (execute st fn o).calls = 1 ∧ ∃ err, (execute st fn o).result = Except.error err := by
  have hcl : isNonRetryableError e = true := by
    rcases he with h | h | h | h | h | h <;> simp [isNonRetryableError, h]
  have hbody : attemptBody fn 0 = AttemptOutcome.aborted e.message := by
    simp [attemptBody, h0, hcl]
  have hrun := pRetryRun_aborted o o.retries hbody
  cases st with
  | opened => exact absurd rfl hst
  | closed =>
    exact ⟨by simp [execute, executeWithRetry, hrun],
      ⟨ExecError.underlying { message := e.message, statusCode := none, code := none },
        by simp [execute, executeWithRetry, hrun]⟩⟩
  | halfOpen =>
    exact ⟨by simp [execute, executeWithRetry, hrun],
      ⟨ExecError.underlying { message := e.message, statusCode := none, code := none },
        by simp [execute, executeWithRetry, hrun]⟩⟩

/-- Witness for C1: a function always failing with status 400 under the
default configuration is called once and rejected. -/
theorem claim_C1_nonretryable_single_call_witness :
    (CircuitState.closed ≠ CircuitState.opened) ∧
    (fnErr400 0 = Except.error exErr400) ∧
    (exErr400.statusCode = some 400) ∧
    ((execute CircuitState.closed fnErr400 retryConfDefault).calls = 1 ∧
      ∃ err, (execute CircuitState.closed fnErr400 retryConfDefault).result = Except.error err) :=
  ⟨by decide, rfl, rfl,
    claim_C1_nonretryable_single_call CircuitState.closed fnErr400 retryConfDefault exErr400
      (by decide) rfl (Or.inl rfl)⟩

/-- C5 counterexample: the claim that a non-retryable error is propagated
to the caller unmodified (same error with its properties, e.g. statusCode)
is false — a function failing with a status-400 error is aborted after one
call, but the rejection is a fresh error carrying only the message, with
the statusCode dropped. -/
theorem claim_C5_counterexample :
    (execute CircuitState.closed fnErr400 retryConfDefault).calls = 1 ∧
    (execute CircuitState.closed fnErr400 retryConfDefault).result ≠
      Except.error (ExecError.underlying exErr400) ∧
    (execute CircuitState.closed fnErr400 retryConfDefault).result =
      Except.error (ExecError.underlying
        { message := "Bad request", statusCode := none, code := none }) := by
  refine ⟨by decide, by decide, by decide⟩

/-- C5 as amended: when the classifier marks an error non-retryable,
execute (circuit not open) aborts immediately — the wrapped function is
invoked exactly once — and the error propagated to the caller is a fresh
error carrying only the original error message; the original statusCode
and application code are not preserved (the abort path wraps the message in
an AbortError, and the rejection carries only that message). -/
theorem claim_C5_abort_fresh_error {T : Type} (st : CircuitState)
    (fn : Nat → Except JSError T) (o : RetryConf) (e : JSError)
    (hst : st ≠ CircuitState.opened)
    (h0 : fn 0 = Except.error e)
    (hcl : isNonRetryableError e = true) :
    (execute st fn o).calls = 1 ∧
    (execute st fn o).result =
      Except.error (ExecError.underlying
        { message := e.message, statusCode := none, code := none }) := by
  have hbody : attemptBody fn 0 = AttemptOutcome.aborted e.message := by
    simp [attemptBody, h0, hcl]
  have hrun := pRetryRun_aborted o o.retries hbody
  cases st with
  | opened => exact absurd rfl hst
  | closed => exact ⟨by simp [execute, executeWithRetry, hrun],
      by simp [execute, executeWithRetry, hrun]⟩
  | halfOpen => exact ⟨by simp [execute, executeWithRetry, hrun],
      by simp [execute, executeWithRetry, hrun]⟩

/-- Witness for the amended C5 at the concrete 400 error. -/
theorem claim_C5_abort_fresh_error_witness :
    (CircuitState.closed ≠ CircuitState.opened) ∧
    (fnErr400 0 = Except.error exErr400) ∧
    (isNonRetryableError exErr400 = true) ∧
    ((execute CircuitState.closed fnErr400 retryConfDefault).calls = 1 ∧
      (execute CircuitState.closed fnErr400 retryConfDefault).result =
        Except.error (ExecError.underlying
          { message := "Bad request", statusCode := none, code := none })) :=
  ⟨by decide, rfl, by decide,
    claim_C5_abort_fresh_error CircuitState.closed fnErr400 retryConfDefault exErr400
      (by decide) rfl (by decide)⟩

/-- C6 counterexample: the claim that the retryability classifier is
overridable per instance — that some constructor configuration makes two
instances wrapping the same function classify the same error differently —
is false: the classification used by an instance does not depend on the
constructor configuration at all. -/
theorem claim_C6_counterexample :
    ¬ ∃ (r1 r2 : RetryOptions) (c1 c2 : CircuitBreakerOptions) (e : JSError),
        classifierOf r1 c1 e ≠ classifierOf r2 c2 e := by
  rintro ⟨r1, r2, c1, c2, e, h⟩
  exact h rfl

/-- C6 as amended: the retryability classifier is fixed, not overridable —
every ResilientFunction instance, whatever its constructor configuration,
classifies every error identically, namely by the hard-coded
isNonRetryableError predicate; in particular every instance treats a
status-400 error as non-retryable and a plain status-500 error as
retryable. -/
theorem claim_C6_classifier_fixed (r1 r2 : RetryOptions)
    (c1 c2 : CircuitBreakerOptions) (e : JSError) :
    classifierOf r1 c1 e = classifierOf r2 c2 e ∧
    classifierOf r1 c1 e = isNonRetryableError e ∧
    classifierOf r1 c1 exErr400 = true ∧
    classifierOf r1 c1 exErr500 = false :=
  ⟨rfl, rfl, rfl, rfl⟩

/-- C3: while the circuit breaker is open, execute rejects without invoking
the wrapped function at all, and the rejection is the synthetic circuit
open error, which is distinct from every error the underlying operation can
surface (those appear under the underlying constructor), so a caller can
distinguish a refused call from a dependency failure. -/
theorem claim_C3_open_circuit_fast_fail {T : Type} (fn : Nat → Except JSError T)
    (o : RetryConf) :
    (execute CircuitState.opened fn o).calls = 0 ∧
    (execute CircuitState.opened fn o).result = Except.error ExecError.circuitOpen ∧
    (∀ e : JSError, ExecError.circuitOpen ≠ ExecError.underlying e) ∧
    (∀ st : CircuitState, st ≠ CircuitState.opened →
      (execute st fn o).result ≠ Except.error ExecError.circuitOpen) := by
  refine ⟨rfl, rfl, fun e h => ExecError.noConfusion h, ?_⟩
  intro st hst
  cases st with
  | opened => exact absurd rfl hst
  | closed =>
    simp only [execute]
    cases h : (executeWithRetry fn o).result with
    | ok v => simp [h]
    | error e => simp [h]
  | halfOpen =>
    simp only [execute]
    cases h : (executeWithRetry fn o).result with
    | ok v => simp [h]
    | error e => simp [h]

/-- Witness for C3: with the circuit open the concrete failing operation is
never called; when closed, the rejection is never the synthetic error. -/
theorem claim_C3_open_circuit_fast_fail_witness :
    (CircuitState.closed ≠ CircuitState.opened) ∧
    (execute CircuitState.opened fnErr500 retryConfDefault).calls = 0 ∧
    (execute CircuitState.closed fnErr500 retryConfDefault).result ≠
      Except.error ExecError.circuitOpen :=
  ⟨by decide,
    (claim_C3_open_circuit_fast_fail fnErr500 retryConfDefault).1,
    (claim_C3_open_circuit_fast_fail fnErr500 retryConfDefault).2.2.2
      CircuitState.closed (by decide)⟩

/-- C4: the circuit breaker moves from closed to open only when the failure
percentage within the rolling window has reached errorThresholdPercentage
and the minimum call volume has been observed; in particular, with a
minimum volume of at least two it never opens on a single failure when the
observed volume is near zero. -/
theorem claim_C4_open_needs_threshold_and_volume (c : BreakerConf) (w : BreakerWindow) :
    (breakerTransition c CircuitState.closed w = CircuitState.opened →
      c.errorThresholdPercentage ≤ failurePercentage w ∧
      c.volumeThreshold ≤ windowVolume w) ∧
    (2 ≤ c.volumeThreshold →
      breakerTransition c CircuitState.closed { successes := 0, failures := 1 } =
        CircuitState.closed) := by
  constructor
  · intro h
    by_cases hso : shouldOpen c w
    · simp [shouldOpen] at hso
      exact ⟨hso.2, hso.1⟩
    · simp [breakerTransition, hso] at h
  · intro h2
    have hvol : ¬ (c.volumeThreshold ≤ windowVolume { successes := 0, failures := 1 }) := by
      simp [windowVolume]
      omega
    simp [breakerTransition, shouldOpen, hvol]

/-- Witness for C4: with threshold 50 percent and minimum volume 2, five
failures open the circuit (and satisfy both conditions), while a single
failure does not. -/
theorem claim_C4_open_needs_threshold_and_volume_witness :
    (breakerTransition { errorThresholdPercentage := 50, volumeThreshold := 2 }
        CircuitState.closed { successes := 0, failures := 5 } = CircuitState.opened) ∧
    (50 ≤ failurePercentage { successes := 0, failures := 5 } ∧
      2 ≤ windowVolume { successes := 0, failures := 5 }) ∧
    (2 ≤ (2 : Nat)) ∧
    (breakerTransition { errorThresholdPercentage := 50, volumeThreshold := 2 }
        CircuitState.closed { successes := 0, failures := 1 } = CircuitState.closed) :=
  ⟨by decide,
    (claim_C4_open_needs_threshold_and_volume
        { errorThresholdPercentage := 50, volumeThreshold := 2 }
        { successes := 0, failures := 5 }).1 (by decide),
    by decide,
    (claim_C4_open_needs_threshold_and_volume
        { errorThresholdPercentage := 50, volumeThreshold := 2 }
        { successes := 0, failures := 5 }).2 (by decide)⟩

end ResilientFunction

end WaAgent
namespace WaAgent

/-- The JavaScript or-default idiom yields a positive value whenever the
default is positive. -/
theorem jsOrNat_pos (x : Option Nat) (d : Nat) (hd : 1 ≤ d) : 1 ≤ jsOrNat x d := by
  cases x with
  | none => simpa [jsOrNat] using hd
  | some n =>
    by_cases h : n = 0
    · simpa [jsOrNat, h] using hd
    · simp [jsOrNat, h]
      omega

/-- C7: set(k, v) followed immediately by get(k) returns v even when every
remote-tier operation fails (whatever the remote get would report and
whatever the remote setex did); a remote-tier error during get leaves the
caller with exactly what the local tier alone provides (the local value or
null, never a propagated remote error); and the outcome of the remote setex
call has no effect on the result of set. -/
theorem claim_C7_cache_degrades_gracefully {V : Type} (cfg : CacheConfig)
    (entries : List (String × LocalEntry V)) (k : String) (v : V)
    (ttlMs : Option Nat) (now : Nat)
    (rSet : Option (RemoteResult Unit)) (rGet : Option (RemoteResult (Option V))) :
    (AgentCache.get now cfg
        (AgentCache.set now cfg { max := jsOrNat cfg.maxSize 1000, entries := entries }
          k v ttlMs rSet)
        rGet k).1 = some v ∧
    (∀ cache : LocalCache V,
      (AgentCache.get now cfg cache (some RemoteResult.err) k).1 = (lruGet now cache k).1) ∧
    (∀ (cache : LocalCache V) (r1 r2 : Option (RemoteResult Unit)),
      AgentCache.set now cfg cache k v ttlMs r1 = AgentCache.set now cfg cache k v ttlMs r2) := by
  refine ⟨?_, ?_, fun cache r1 r2 => rfl⟩
  · have hpos : 1 ≤ jsOrNat ttlMs (jsOrNat cfg.ttlMs 300000) :=
      jsOrNat_pos _ _ (jsOrNat_pos _ _ (by omega))
    have hlt : now < now + jsOrNat ttlMs (jsOrNat cfg.ttlMs 300000) := by omega
    simp [AgentCache.get, AgentCache.set, lruSet, lruGet, hlt]
  · intro cache
    rcases hg : lruGet now cache k with ⟨r, c1⟩
    cases r with
    | some v0 => simp [AgentCache.get, hg]
    | none => simp [AgentCache.get, hg]

/-- C10: withTransaction issues BEGIN before the callback and COMMIT after
a successful callback, returning the callback result; when the callback
throws it issues ROLLBACK and rethrows the original callback error; and on
both paths the acquired client is released back to the pool. The callback
is characterised by the queries it issues and its outcome. -/
theorem claim_C10_withTransaction_atomic_leakfree {T E : Type}
    (cb : TxClient → Except E T × TxClient)
    (cbQueries : List String) (cbResult : Except E T)
    (hcb : ∀ c, cb c = (cbResult, { c with queries := c.queries ++ cbQueries })) :
    (withTransaction cb).2.released = true ∧
    (withTransaction cb).1 = cbResult ∧
    (∀ v, cbResult = Except.ok v →
      (withTransaction cb).1 = Except.ok v ∧
      (withTransaction cb).2.queries = ["BEGIN"] ++ cbQueries ++ ["COMMIT"]) ∧
    (∀ e, cbResult = Except.error e →
      (withTransaction cb).1 = Except.error e ∧
      (withTransaction cb).2.queries = ["BEGIN"] ++ cbQueries ++ ["ROLLBACK"]) := by
  have h1 : cb { queries := ["BEGIN"], released := false } =
      (cbResult, { queries := "BEGIN" :: cbQueries, released := false }) := by
    simpa using hcb { queries := ["BEGIN"], released := false }
  cases cbResult with
  | ok v0 =>
    have h1 : cb { queries := ["BEGIN"], released := false } =
        (Except.ok v0, { queries := "BEGIN" :: cbQueries, released := false }) := h1
    refine ⟨?_, ?_, ?_, ?_⟩
    · simp [withTransaction, txQuery, txRelease, h1]
    · simp [withTransaction, txQuery, txRelease, h1]
    · intro v hv
      obtain rfl : v0 = v := Except.ok.inj hv
      constructor
      · simp [withTransaction, txQuery, txRelease, h1]
      · simp [withTransaction, txQuery, txRelease, h1]
    · intro e he
      exact absurd he (fun hc => Except.noConfusion hc)
  | error e0 =>
    refine ⟨?_, ?_, ?_, ?_⟩
    · simp [withTransaction, txQuery, txRelease, h1]
    · simp [withTransaction, txQuery, txRelease, h1]
    · intro v hv
      exact absurd hv (fun hc => Except.noConfusion hc)
    · intro e he
      obtain rfl : e0 = e := Except.error.inj he
      constructor
      · simp [withTransaction, txQuery, txRelease, h1]
      · simp [withTransaction, txQuery, txRelease, h1]

/-- Witness for C10: a callback issuing one INSERT and returning 5 commits
and releases; its sibling that throws rolls back and releases. -/
theorem claim_C10_withTransaction_atomic_leakfree_witness :
    (∀ c : TxClient,
      (fun c => ((Except.ok 5 : Except String Nat), txQuery c "INSERT")) c =
        ((Except.ok 5 : Except String Nat), { c with queries := c.queries ++ ["INSERT"] })) ∧
    (withTransaction
        (fun c => ((Except.ok 5 : Except String Nat), txQuery c "INSERT"))).2.released = true ∧
    (withTransaction
        (fun c => ((Except.ok 5 : Except String Nat), txQuery c "INSERT"))).2.queries =
      ["BEGIN", "INSERT", "COMMIT"] := by
  have h := claim_C10_withTransaction_atomic_leakfree
    (fun c => ((Except.ok 5 : Except String Nat), txQuery c "INSERT"))
    ["INSERT"] (Except.ok 5) (fun c => rfl)
  exact ⟨fun c => rfl, h.1, (h.2.2.1 5 rfl).2⟩

end WaAgent
namespace WaAgent

namespace MessageQueue

/-- Enqueueing a payload list pushes its wrapped messages, newest first, on
the left of the existing items, consuming one fresh id per payload. -/
theorem enqueueAll_spec {V : Type} (now : Nat) :
    ∀ (ps : List V) (st : QueueState V),
      (enqueueAll now st ps).items = (wrapList now st.nextId ps).reverse ++ st.items ∧
      (enqueueAll now st ps).nextId = st.nextId + ps.length := by
  intro ps
  induction ps with
  | nil => intro st; simp [enqueueAll, wrapList]
  | cons p ps ih =>
    intro st
    obtain ⟨h1, h2⟩ := ih (enqueue now st p).2
    refine ⟨?_, ?_⟩
    · rw [enqueueAll, h1]
      simp [enqueue, wrapList]
    · rw [enqueueAll, h2]
      simp [enqueue]
      omega

/-- Dequeueing as many messages as the FIFO content of the queue returns
exactly that content, oldest first, and empties the queue. -/
theorem dequeueAll_of_items_reverse {V : Type} :
    ∀ (fifo : List (QMessage V)) (st : QueueState V),
      st.items = fifo.reverse →
      dequeueAll st fifo.length = (fifo, { items := [], nextId := st.nextId }) := by
  intro fifo
  induction fifo with
  | nil =>
    intro st h
    simp at h
    simp [dequeueAll]
    cases st with
    | mk items nextId => simp at h; simp [h]
  | cons m fifo ih =>
    intro st h
    have hget : st.items.getLast? = some m := by
      rw [h, List.reverse_cons, List.getLast?_concat]
    have hdrop : st.items.dropLast = fifo.reverse := by
      rw [h, List.reverse_cons, List.dropLast_concat]
    have hd : dequeue st = (some m, { st with items := fifo.reverse }) := by
      simp [dequeue, hget, hdrop]
    have ih2 := ih { st with items := fifo.reverse } rfl
    simp [List.length_cons, dequeueAll, hd, ih2]

/-- The wrapped messages carry exactly the payloads, in order. -/
theorem wrapList_map_data {V : Type} (now : Nat) :
    ∀ (ps : List V) (n0 : Nat), (wrapList now n0 ps).map (fun m => m.data) = ps := by
  intro ps
  induction ps with
  | nil => intro n0; simp [wrapList]
  | cons p ps ih => intro n0; simp [wrapList, ih]

/-- The wrapped messages carry consecutive ids counted from the supply. -/
theorem wrapList_map_id {V : Type} (now : Nat) :
    ∀ (ps : List V) (n0 : Nat),
      (wrapList now n0 ps).map (fun m => m.id) = List.range' n0 ps.length := by
  intro ps
  induction ps with
  | nil => intro n0; simp [wrapList]
  | cons p ps ih => intro n0; simp [wrapList, ih, List.range'_succ]

/-- wrapList preserves length. -/
theorem wrapList_length {V : Type} (now : Nat) :
    ∀ (ps : List V) (n0 : Nat), (wrapList now n0 ps).length = ps.length := by
  intro ps
  induction ps with
  | nil => intro n0; simp [wrapList]
  | cons p ps ih => intro n0; simp [wrapList, ih]

end MessageQueue

end WaAgent
namespace WaAgent

namespace MessageQueue

/-- C8: enqueue(p) then dequeue() on an empty queue returns a message whose
payload equals p, carrying the returned fresh id, the enqueue timestamp and
attempt counter 0, and removes it from the queue; and N enqueues followed
by N dequeues return the payloads in enqueue order (FIFO) with pairwise
distinct generated ids, leaving the queue empty. -/
theorem claim_C8_queue_fifo {V : Type} (now : Nat) (p : V) (ps : List V) :
    (dequeue (enqueue now (empty V) p).2).1 =
      some { id := (enqueue now (empty V) p).1, data := p, timestamp := now, attempts := 0 } ∧
    (dequeue (enqueue now (empty V) p).2).2.items = [] ∧
    ((dequeueAll (enqueueAll now (empty V) ps) ps.length).1.map (fun m => m.data)) = ps ∧
    ((dequeueAll (enqueueAll now (empty V) ps) ps.length).1.map (fun m => m.id)).Nodup ∧
    (dequeueAll (enqueueAll now (empty V) ps) ps.length).2.items = [] := by
  have hitems := (enqueueAll_spec now ps (empty V)).1
  have hlen : (wrapList now 0 ps).length = ps.length := wrapList_length now ps 0
  have hdq := dequeueAll_of_items_reverse (wrapList now (empty V).nextId ps)
    (enqueueAll now (empty V) ps) (by simpa [empty] using hitems)
  rw [show ((empty V).nextId) = 0 from rfl] at hdq
  rw [hlen] at hdq
  refine ⟨rfl, rfl, ?_, ?_, ?_⟩
  · rw [hdq]
    exact wrapList_map_data now ps 0
  · rw [hdq]
    rw [wrapList_map_id now ps 0]
    exact List.nodup_range' 0 ps.length
  · rw [hdq]
end MessageQueue

end WaAgent
namespace WaAgent

namespace AgentPool

/-- Map.set grows the association list by at most one entry. -/
theorem mapSet_length_le {A : Type} (k : String) (v : A) :
    ∀ m : List (String × A), (mapSet m k v).length ≤ m.length + 1 := by
  intro m
  induction m with
  | nil => simp [mapSet]
  | cons p rest ih =>
    by_cases h : p.1 == k
    · simp [mapSet, h]
    · simp only [mapSet, h]
      simp
      omega

/-- Every key of the list after Map.set is an old key or the inserted
key. -/
theorem mapSet_fst_mem {A : Type} (k : String) (v : A) :
    ∀ (m : List (String × A)) (x : String),
      x ∈ (mapSet m k v).map Prod.fst → x ∈ m.map Prod.fst ∨ x = k := by
  intro m
  induction m with
  | nil => intro x hx; simp [mapSet] at hx; exact Or.inr hx
  | cons p rest ih =>
    intro x hx
    by_cases h : p.1 == k
    · simp [mapSet, h] at hx
      rcases hx with hx | hx
      · exact Or.inr hx
      · exact Or.inl (by simp [hx])
    · simp only [mapSet, h] at hx
      simp at hx
      rcases hx with hx | hx
      · exact Or.inl (by simp [hx])
      · rcases ih x (by simpa using hx) with h2 | h2
        · exact Or.inl (by simp; exact Or.inr (by simpa using h2))
        · exact Or.inr h2

/-- Map.set preserves key uniqueness. -/
theorem mapSet_nodup {A : Type} (k : String) (v : A) :
    ∀ m : List (String × A),
      (m.map Prod.fst).Nodup → ((mapSet m k v).map Prod.fst).Nodup := by
  intro m
  induction m with
  | nil => intro _; simp [mapSet]
  | cons p rest ih =>
    intro hnd
    simp only [List.map_cons, List.nodup_cons] at hnd
    cases h : (p.1 == k) with
    | true =>
      have hk : p.1 = k := by simpa using h
      have hms : mapSet (p :: rest) k v = (k, v) :: rest := by simp [mapSet, h]
      rw [hms]
      simp only [List.map_cons, List.nodup_cons]
      exact ⟨by rw [← hk]; exact hnd.1, hnd.2⟩
    | false =>
      have hne : ¬ p.1 = k := by simpa using h
      have hms : mapSet (p :: rest) k v = p :: mapSet rest k v := by simp [mapSet, h]
      rw [hms]
      simp only [List.map_cons, List.nodup_cons]
      refine ⟨?_, ih hnd.2⟩
      intro hx
      rcases mapSet_fst_mem k v rest p.1 hx with h2 | h2
      · exact hnd.1 h2
      · exact hne h2

end AgentPool

end WaAgent
namespace WaAgent

namespace AgentPool

/-- Invariant preservation for the create path of getAgent: with a positive
capacity, non-empty session keys in the map and a non-empty requested key,
key uniqueness, the capacity bound and key non-emptiness survive, and the
configuration is untouched. -/
theorem getAgentCreate_inv (now : Nat) (st : PoolState) (sid : String)
    (hsid : sid ≠ "")
    (hnd : (st.warmAgents.map Prod.fst).Nodup)
    (hlen : st.warmAgents.length ≤ st.maxSize)
    (hmax : 1 ≤ st.maxSize)
    (hne : ∀ x ∈ st.warmAgents.map Prod.fst, x ≠ "") :
    (((getAgent.getAgentCreate now st sid).2.warmAgents.map Prod.fst).Nodup ∧
      (getAgent.getAgentCreate now st sid).2.warmAgents.length ≤ st.maxSize ∧
      (∀ x ∈ (getAgent.getAgentCreate now st sid).2.warmAgents.map Prod.fst, x ≠ "")) ∧
    (getAgent.getAgentCreate now st sid).2.maxSize = st.maxSize ∧
    (getAgent.getAgentCreate now st sid).2.ttlMs = st.ttlMs := by
  cases hc : mapGet st.agentCreators sid with
  | none =>
    have hred : (getAgent.getAgentCreate now st sid).2 = st := by
      simp [getAgent.getAgentCreate, hc]
    rw [hred]
    exact ⟨⟨hnd, hlen, hne⟩, rfl, rfl⟩
  | some creator =>
    by_cases hful : st.maxSize ≤ st.warmAgents.length
    · have hlen2 : st.warmAgents.length = st.maxSize := le_antisymm hlen hful
      cases hw : st.warmAgents with
      | nil =>
        rw [hw] at hlen2
        simp at hlen2
        omega
      | cons q rest =>
        have hq : q.1 ≠ "" := hne q.1 (by rw [hw]; simp)
        have hqb : ¬ q.1 = "" := hq
        have hrest_nd : (rest.map Prod.fst).Nodup ∧ q.1 ∉ rest.map Prod.fst := by
          rw [hw] at hnd
          simp only [List.map_cons, List.nodup_cons] at hnd
          exact ⟨hnd.2, hnd.1⟩
        have herase : (q :: rest).eraseP (fun r => r.1 == q.1) = rest :=
          List.eraseP_cons_of_pos (by simp)
        have hful2 : st.maxSize ≤ rest.length + 1 := by
          rw [hw] at hful
          simpa using hful
        have hred : (getAgent.getAgentCreate now st sid).2 =
            { st with warmAgents := mapSet rest sid { agent := creator, timestamp := now } } := by
          simp [getAgent.getAgentCreate, hc, hw, hful2, hqb, herase]
        rw [hred]
        refine ⟨⟨?_, ?_, ?_⟩, rfl, rfl⟩
        · exact mapSet_nodup sid _ rest hrest_nd.1
        · have h1 := mapSet_length_le sid { agent := creator, timestamp := now } rest
          have h2 : rest.length + 1 = st.maxSize := by
            rw [hw] at hlen2
            simpa using hlen2
          simpa [h2] using h1
        · intro x hx
          rcases mapSet_fst_mem sid _ rest x hx with h2 | h2
          · exact hne x (by rw [hw, List.map_cons]; exact List.mem_cons_of_mem _ h2)
          · rw [h2]; exact hsid
    · have hred : (getAgent.getAgentCreate now st sid).2 =
          { st with warmAgents := mapSet st.warmAgents sid { agent := creator, timestamp := now } } := by
        simp [getAgent.getAgentCreate, hc, hful]
      rw [hred]
      refine ⟨⟨?_, ?_, ?_⟩, rfl, rfl⟩
      · exact mapSet_nodup sid _ st.warmAgents hnd
      · have h1 := mapSet_length_le sid { agent := creator, timestamp := now } st.warmAgents
        show (mapSet st.warmAgents sid { agent := creator, timestamp := now }).length ≤ st.maxSize
        omega
      · intro x hx
        rcases mapSet_fst_mem sid _ st.warmAgents x hx with h2 | h2
        · exact hne x h2
        · rw [h2]; exact hsid

end AgentPool

end WaAgent
namespace WaAgent

namespace AgentPool

/-- Invariant preservation for getAgent itself. -/
theorem getAgent_inv (now : Nat) (st : PoolState) (sid : String)
    (hsid : sid ≠ "")
    (hnd : (st.warmAgents.map Prod.fst).Nodup)
    (hlen : st.warmAgents.length ≤ st.maxSize)
    (hmax : 1 ≤ st.maxSize)
    (hne : ∀ x ∈ st.warmAgents.map Prod.fst, x ≠ "") :
    (((getAgent now st sid).2.warmAgents.map Prod.fst).Nodup ∧
      (getAgent now st sid).2.warmAgents.length ≤ st.maxSize ∧
      (∀ x ∈ (getAgent now st sid).2.warmAgents.map Prod.fst, x ≠ "")) ∧
    (getAgent now st sid).2.maxSize = st.maxSize ∧
    (getAgent now st sid).2.ttlMs = st.ttlMs := by
  cases hw : mapGet st.warmAgents sid with
  | some ent =>
    by_cases hfresh : now - ent.timestamp < st.ttlMs
    · have hred : (getAgent now st sid).2 = st := by
        simp [getAgent, hw, hfresh]
      rw [hred]
      exact ⟨⟨hnd, hlen, hne⟩, rfl, rfl⟩
    · have hred : (getAgent now st sid).2 = (getAgent.getAgentCreate now st sid).2 := by
        simp [getAgent, hw, hfresh]
      rw [hred]
      exact getAgentCreate_inv now st sid hsid hnd hlen hmax hne
  | none =>
    have hred : (getAgent now st sid).2 = (getAgent.getAgentCreate now st sid).2 := by
      simp [getAgent, hw]
    rw [hred]
    exact getAgentCreate_inv now st sid hsid hnd hlen hmax hne

/-- Invariant preservation for cleanup: the sweep only removes entries. -/
theorem cleanup_inv (now : Nat) (st : PoolState)
    (hnd : (st.warmAgents.map Prod.fst).Nodup)
    (hlen : st.warmAgents.length ≤ st.maxSize)
    (hne : ∀ x ∈ st.warmAgents.map Prod.fst, x ≠ "") :
    (((cleanup now st).warmAgents.map Prod.fst).Nodup ∧
      (cleanup now st).warmAgents.length ≤ st.maxSize ∧
      (∀ x ∈ (cleanup now st).warmAgents.map Prod.fst, x ≠ "")) ∧
    (cleanup now st).maxSize = st.maxSize ∧
    (cleanup now st).ttlMs = st.ttlMs := by
  refine ⟨⟨?_, ?_, ?_⟩, rfl, rfl⟩
  · exact hnd.sublist (List.Sublist.map Prod.fst (List.filter_sublist _))
  · calc (cleanup now st).warmAgents.length
        ≤ st.warmAgents.length := List.length_filter_le _ _
      _ ≤ st.maxSize := hlen
  · intro x hx
    rcases List.mem_map.mp hx with ⟨p, hp, hpx⟩
    exact hpx ▸ hne p.1 (List.mem_map_of_mem Prod.fst (List.mem_of_mem_filter hp))

end AgentPool

end WaAgent
namespace WaAgent

namespace AgentPool

/-- The pool invariant holds after any sequence of operations whose session
ids are non-empty, starting from any state satisfying it. -/
theorem runOps_inv (ops : List PoolOp) :
    ∀ st : PoolState,
      (∀ op ∈ ops, opSession op ≠ some "") →
      1 ≤ st.maxSize →
      (st.warmAgents.map Prod.fst).Nodup →
      st.warmAgents.length ≤ st.maxSize →
      (∀ x ∈ st.warmAgents.map Prod.fst, x ≠ "") →
      ((runOps st ops).warmAgents.map Prod.fst).Nodup ∧
      (runOps st ops).warmAgents.length ≤ st.maxSize ∧
      (∀ x ∈ (runOps st ops).warmAgents.map Prod.fst, x ≠ "") := by
  induction ops with
  | nil =>
    intro st _ _ hnd hlen hne
    exact ⟨hnd, hlen, hne⟩
  | cons op ops ih =>
    intro st hops hmax hnd hlen hne
    have hopss : ∀ o ∈ ops, opSession o ≠ some "" :=
      fun o ho => hops o (List.mem_cons_of_mem op ho)
    cases op with
    | register sessionId creator =>
      have hstep := ih { st with agentCreators := mapSet st.agentCreators sessionId creator }
        hopss hmax hnd hlen hne
      simpa [runOps, applyOp, registerAgentCreator] using hstep
    | get now sessionId =>
      have hsid : sessionId ≠ "" := by
        intro hcon
        exact hops (PoolOp.get now sessionId) (List.mem_cons_self _ _) (by rw [hcon]; rfl)
      obtain ⟨⟨hnd1, hlen1, hne1⟩, hmax1, _⟩ :=
        getAgent_inv now st sessionId hsid hnd hlen hmax hne
      have hstep := ih (getAgent now st sessionId).2 hopss (by omega)
        hnd1 (by omega) hne1
      have hfix : (getAgent now st sessionId).2.maxSize = st.maxSize := hmax1
      refine ⟨hstep.1, ?_, hstep.2.2⟩
      have := hstep.2.1
      simp only [runOps, applyOp]
      omega
    | sweep now =>
      obtain ⟨⟨hnd1, hlen1, hne1⟩, hmax1, _⟩ := cleanup_inv now st hnd hlen hne
      have hstep := ih (cleanup now st) hopss (by omega) hnd1 (by omega) hne1
      refine ⟨hstep.1, ?_, hstep.2.2⟩
      have := hstep.2.1
      simp only [runOps, applyOp]
      omega

end AgentPool

end WaAgent
namespace WaAgent

namespace AgentPool

/-- C9 counterexample: the claim that the pool never holds more than
maxSize entries is false as stated — with maxSize 1, registering creators
for the empty-string session and for session b and then requesting both
leaves two entries in the pool, because the eviction guard tests the oldest
key for truthiness and the empty string is falsy. -/
theorem claim_C9_counterexample :
    (runOps (init 1 600000)
        [PoolOp.register "" 7, PoolOp.register "b" 8,
         PoolOp.get 0 "", PoolOp.get 1 "b"]).warmAgents.length = 2 ∧
    (init 1 600000).maxSize = 1 := by
  refine ⟨by decide, rfl⟩

/-- C9 as amended: after every sequence of pool operations the pool holds
at most one entry per session key, and — provided maxSize is at least 1 and
no operation names the empty-string session id, whose falsiness defeats the
eviction guard — at most maxSize entries; getAgent returns a cached agent
exactly when one is present whose age is strictly below ttlMs (leaving the
pool untouched), an older entry is rebuilt through the registered creator
(never reused), and a request with no usable cached entry and no registered
creator fails with the no-agent-creator-registered error. -/
theorem claim_C9_pool_invariants (maxSize ttlMs : Nat) (ops : List PoolOp)
    (hmax : 1 ≤ maxSize)
    (hsid : ∀ op ∈ ops, opSession op ≠ some "") :
    ((runOps (init maxSize ttlMs) ops).warmAgents.map Prod.fst).Nodup ∧
    (runOps (init maxSize ttlMs) ops).warmAgents.length ≤ maxSize ∧
    (∀ (st : PoolState) (sid : String) (ent : PoolEntry) (now : Nat),
      mapGet st.warmAgents sid = some ent → now - ent.timestamp < st.ttlMs →
      getAgent now st sid = (GetAgentResult.ok ent.agent false, st)) ∧
    (∀ (st : PoolState) (sid : String) (ent : PoolEntry) (now creator : Nat),
      mapGet st.warmAgents sid = some ent → ¬ now - ent.timestamp < st.ttlMs →
      mapGet st.agentCreators sid = some creator →
      (getAgent now st sid).1 = GetAgentResult.ok creator true) ∧
    (∀ (st : PoolState) (sid : String) (now : Nat),
      (mapGet st.warmAgents sid = none ∨
        ∃ ent, mapGet st.warmAgents sid = some ent ∧ ¬ now - ent.timestamp < st.ttlMs) →
      mapGet st.agentCreators sid = none →
      (getAgent now st sid).1 =
        GetAgentResult.error ("No agent creator registered for session: " ++ sid)) := by
  obtain ⟨h1, h2, _⟩ := runOps_inv ops (init maxSize ttlMs) hsid
    (by simpa [init] using hmax) (by simp [init]) (by simp [init]) (by simp [init])
  refine ⟨h1, by simpa [init] using h2, ?_, ?_, ?_⟩
  · intro st sid ent now hw hfresh
    simp [getAgent, hw, hfresh]
  · intro st sid ent now creator hw hstale hc
    simp [getAgent, hw, hstale, getAgent.getAgentCreate, hc]
  · intro st sid now hw hc
    rcases hw with hw | ⟨ent, hw, hstale⟩
    · simp [getAgent, hw, getAgent.getAgentCreate, hc]
    · simp [getAgent, hw, hstale, getAgent.getAgentCreate, hc]

/-- Witness for C9 at a concrete operation sequence with non-empty session
ids and maxSize 1. -/
theorem claim_C9_pool_invariants_witness :
    (1 ≤ 1) ∧
    (∀ op ∈ [PoolOp.register "a" 7, PoolOp.register "b" 8,
             PoolOp.get 0 "a", PoolOp.get 1 "b"], opSession op ≠ some "") ∧
    ((runOps (init 1 600000)
        [PoolOp.register "a" 7, PoolOp.register "b" 8,
         PoolOp.get 0 "a", PoolOp.get 1 "b"]).warmAgents.map Prod.fst).Nodup ∧
    (runOps (init 1 600000)
        [PoolOp.register "a" 7, PoolOp.register "b" 8,
         PoolOp.get 0 "a", PoolOp.get 1 "b"]).warmAgents.length ≤ 1 := by
  have h := claim_C9_pool_invariants 1 600000
    [PoolOp.register "a" 7, PoolOp.register "b" 8, PoolOp.get 0 "a", PoolOp.get 1 "b"]
    (by decide) (by decide)
  exact ⟨by decide, by decide, h.1, h.2.1⟩

end AgentPool

end WaAgent
